import Mathlib

/-!
Shallow embedding of `src/byteps/common/operations.cc` (BytePS control plane):
the tensor partitioner, the enqueue protocol, the init protocol and the
push/pull itinerary builders, together with proofs of the spec's claims
about them.

Modelling conventions:
* A `Tensor` is represented by its byte size (`Nat`); `input`/`output` of an
  enqueue are `Option Nat` (null shared pointers become `none`).
* The runtime role flags and configuration queried through `BytePSGlobal`
  are gathered in a `Globals` record; they are snapshotted configuration.
* `BPS_CHECK` failures are fatal assertion aborts; they are modelled as an
  error value of kind `invariantViolation` carrying the message.
* The `while` loops of `PartitionTensor` and `InitTensor` are written with a
  fuel argument equal to `size`; for `0 < bound` (every real deployment) the
  fuel is proven never to run out, so the embedding agrees with the C++ loop.
  For `bound = 0` the C++ loop does not terminate.
* In `EnqueueTensor` the C++ accumulator is a 32-bit `unsigned int`; its
  wrap-around is modelled with `% 2^32`.  The accumulators of
  `PartitionTensor` and `InitTensor` (`int` resp. `size_t`) are modelled as
  ideal naturals; within defined behaviour (sizes below `2^31`) this agrees
  with the C++.
-/

/-- Stage identifiers (`QueueType` in `common.h`), in the source's names. -/
inductive QueueType where
  | COORDINATE_REDUCE
  | REDUCE
  | COPYD2H
  | PCIE_REDUCE
  | COORDINATE_PUSH
  | PUSH
  | PULL
  | COPYH2D
  | COORDINATE_BROADCAST
  | BROADCAST
deriving DecidableEq, Repr

/-- The distinguished CPU device id (`CPU_DEVICE_ID` in `common.h`); only its
distinguishedness from real device ids matters here. -/
def CPU_DEVICE_ID : Int := -1

/-- Snapshot of the `BytePSGlobal` role flags and configuration consulted by
`operations.cc`: `IsDistributed`, `IsRootDevice`, `IsCrossPcieSwitch`,
`GetNccl()->IsSignalRoot`, `GetPartitionBound`, `GetWorkerID`. -/
structure Globals where
  is_distributed : Bool
  is_root_device : Bool
  is_cross_pcie_switch : Bool
  nccl_is_signal_root : Bool
  partition_bound : Nat
  worker_id : Nat
deriving DecidableEq, Repr

/-- `GetPushQueueList(device)` from `operations.cc`: the push itinerary,
built by successive `push_back` calls gated on the role flags. -/
def GetPushQueueList (g : Globals) (device : Int) : List QueueType :=
  if device ≠ CPU_DEVICE_ID then
    -- Per-PCIe-switch NCCL reduce
    (if g.nccl_is_signal_root then [QueueType.REDUCE]
     else [QueueType.COORDINATE_REDUCE, QueueType.REDUCE])
    -- Copy from GPU to CPU
    ++ (if g.is_distributed || g.is_cross_pcie_switch then [QueueType.COPYD2H] else [])
    -- Cross-PCIe-switch reduce
    ++ (if g.is_cross_pcie_switch then [QueueType.PCIE_REDUCE] else [])
    -- Push in distributed mode
    ++ (if g.is_distributed then
          (if g.is_root_device then [QueueType.PUSH] else [QueueType.COORDINATE_PUSH])
        else [])
  else []

/-- `GetPullQueueList(device)` from `operations.cc`: the pull itinerary. -/
def GetPullQueueList (g : Globals) (device : Int) : List QueueType :=
  if device ≠ CPU_DEVICE_ID then
    -- Pull in distributed mode
    (if g.is_distributed then
       (if g.is_root_device then [QueueType.PULL] else [])
     else [])
    -- Copy from CPU to GPU
    ++ (if g.is_distributed || g.is_cross_pcie_switch then [QueueType.COPYH2D] else [])
    -- Per-PCIe-switch NCCL broadcast
    ++ (if g.nccl_is_signal_root then [QueueType.BROADCAST]
        else [QueueType.COORDINATE_BROADCAST, QueueType.BROADCAST])
  else []

/-- The push itinerary table exactly as the spec (§4.2) words it, one numbered
step after the other; written from the spec's words for comparison with
`GetPushQueueList`. -/
def specPushItinerary (g : Globals) : List QueueType :=
  let s1 := if g.nccl_is_signal_root then [QueueType.REDUCE]
            else [QueueType.COORDINATE_REDUCE, QueueType.REDUCE]
  let s2 := if g.is_distributed || g.is_cross_pcie_switch then s1 ++ [QueueType.COPYD2H] else s1
  let s3 := if g.is_cross_pcie_switch then s2 ++ [QueueType.PCIE_REDUCE] else s2
  if g.is_distributed then
    s3 ++ [if g.is_root_device then QueueType.PUSH else QueueType.COORDINATE_PUSH]
  else s3

/-- The pull itinerary table exactly as the spec (§4.2) words it; written from
the spec's words for comparison with `GetPullQueueList`. -/
def specPullItinerary (g : Globals) : List QueueType :=
  let s1 : List QueueType :=
    if g.is_distributed && g.is_root_device then [QueueType.PULL] else []
  let s2 := if g.is_distributed || g.is_cross_pcie_switch then s1 ++ [QueueType.COPYH2D] else s1
  if g.nccl_is_signal_root then s2 ++ [QueueType.BROADCAST]
  else s2 ++ [QueueType.COORDINATE_BROADCAST, QueueType.BROADCAST]

/-- A sample role-flag snapshot used to instantiate hypotheses in witnesses. -/
def sampleGlobals : Globals :=
  { is_distributed := true
    is_root_device := false
    is_cross_pcie_switch := true
    nccl_is_signal_root := false
    partition_bound := 4
    worker_id := 1 }

/-- **C1.** For every device other than `CPU_DEVICE_ID` and every combination
of the four role flags, `GetPushQueueList` returns exactly the ordered stage
list of the spec's push table. -/
theorem getPushQueueList_eq_spec (g : Globals) (device : Int)
    (h : device ≠ CPU_DEVICE_ID) :
    GetPushQueueList g device = specPushItinerary g := by
  obtain ⟨d, r, c, s, pb, w⟩ := g
  rw [GetPushQueueList, if_pos h]
  cases d <;> cases r <;> cases c <;> cases s <;> rfl

/-- Witness for C1 at a concrete device and role snapshot. -/
theorem getPushQueueList_eq_spec_witness :
    (0 : Int) ≠ CPU_DEVICE_ID ∧
      GetPushQueueList sampleGlobals 0 = specPushItinerary sampleGlobals :=
  ⟨by decide, getPushQueueList_eq_spec sampleGlobals 0 (by decide)⟩

/-- **C2.** For every device other than `CPU_DEVICE_ID` and every combination
of the four role flags, `GetPullQueueList` returns exactly the ordered stage
list of the spec's pull table. -/
theorem getPullQueueList_eq_spec (g : Globals) (device : Int)
    (h : device ≠ CPU_DEVICE_ID) :
    GetPullQueueList g device = specPullItinerary g := by
  obtain ⟨d, r, c, s, pb, w⟩ := g
  rw [GetPullQueueList, if_pos h]
  cases d <;> cases r <;> cases c <;> cases s <;> rfl

/-- Witness for C2 at a concrete device and role snapshot. -/
theorem getPullQueueList_eq_spec_witness :
    (0 : Int) ≠ CPU_DEVICE_ID ∧
      GetPullQueueList sampleGlobals 0 = specPullItinerary sampleGlobals :=
  ⟨by decide, getPullQueueList_eq_spec sampleGlobals 0 (by decide)⟩

/-- **C10.** For every non-CPU device and every role combination, the push
itinerary is non-empty and contains `REDUCE`, and the pull itinerary is
non-empty with last element `BROADCAST`; hence only CPU tensors get the empty
itinerary from these builders. -/
theorem queue_lists_nonempty_shape (g : Globals) (device : Int)
    (h : device ≠ CPU_DEVICE_ID) :
    GetPushQueueList g device ≠ [] ∧
    QueueType.REDUCE ∈ GetPushQueueList g device ∧
    GetPullQueueList g device ≠ [] ∧
    (GetPullQueueList g device).getLast? = some QueueType.BROADCAST := by
  obtain ⟨d, r, c, s, pb, w⟩ := g
  rw [GetPushQueueList, GetPullQueueList, if_pos h, if_pos h]
  cases d <;> cases r <;> cases c <;> cases s <;>
    exact ⟨by simp, by simp, by simp, by simp [List.getLast?]⟩

/-- Witness for C10 at a concrete device and role snapshot. -/
theorem queue_lists_nonempty_shape_witness :
    (0 : Int) ≠ CPU_DEVICE_ID ∧
      (GetPushQueueList sampleGlobals 0 ≠ [] ∧
       QueueType.REDUCE ∈ GetPushQueueList sampleGlobals 0 ∧
       GetPullQueueList sampleGlobals 0 ≠ [] ∧
       (GetPullQueueList sampleGlobals 0).getLast? = some QueueType.BROADCAST) :=
  ⟨by decide, queue_lists_nonempty_shape sampleGlobals 0 (by decide)⟩

/-- Result statuses delivered to user callbacks; `operations.cc` only ever
constructs `Status::OK()`. -/
inductive Status where
  | ok
deriving DecidableEq, Repr

/-- A fatal `BPS_CHECK` assertion failure; spec §7 classifies these as
`InvariantViolation` (assertion-style termination). -/
inductive BpsError where
  | invariantViolation (msg : String)
deriving DecidableEq, Repr

/-- Registration record (`BPSContext`) with the fields `operations.cc` reads
and writes; host buffers are identified by `Nat` ids. -/
structure BPSContext where
  key_list : List Nat
  buff_len : Nat
  cpubuff : Option Nat
  pcie_cpubuff : List Nat
  reuse_buff : Bool
  initialized : Bool
deriving DecidableEq, Repr

/-- Task record (`TensorTableEntry`) as used by `operations.cc`.  Tensors are
represented by their byte sizes, the shared atomic counter by its presence
bit, and the opaque `ready_event` and context back-pointer are omitted (no
claim mentions them). -/
structure TensorTableEntry where
  tensor_name : String
  key : Option Nat
  tensor : Option Nat
  output : Option Nat
  offset : Nat
  len : Nat
  cpubuff : Option Nat
  pcie_cpubuff : List Nat
  device : Int
  priority : Int
  version : Int
  queue_list : List QueueType
  counter_ptr : Bool
  total_partnum : Nat
deriving DecidableEq, Repr

/-- Size selection `t ? t->size() : o->size()` on the optional
input/output pair (a null `output` here yields 0; the C++ would fault). -/
def tensorSize : Option Nat → Option Nat → Nat
  | some s, _ => s
  | none, o => o.getD 0

/-- `entry->tensor ? entry->tensor->size() : entry->output->size()`. -/
def entrySize (entry : TensorTableEntry) : Nat :=
  tensorSize entry.tensor entry.output

/-- One body of the `PartitionTensor` loop: the fresh child entry for index
`i` at offset `accumulated` with length `len`.  All listed fields are copied
from the parent; the key is deliberately left unassigned
("will assign the key later"). -/
def partChild (entry : TensorTableEntry) (i offset len : Nat) : TensorTableEntry :=
  { entry with
    tensor_name := entry.tensor_name ++ "_" ++ toString i
    key := none
    offset := offset
    len := len }

/-- The `while (accumulated < size)` loop of `PartitionTensor`, with a fuel
argument (first explicit `Nat`); fuel `size` is proven sufficient whenever
`0 < bound`.  For `bound = 0` the C++ loop does not terminate. -/
def partitionLoop (entry : TensorTableEntry) (size bound : Nat) :
    Nat → Nat → Nat → List TensorTableEntry
  | 0, _, _ => []
  | fuel + 1, accumulated, i =>
    if accumulated < size then
      let len := if size - accumulated > bound then bound else size - accumulated
      partChild entry i accumulated len ::
        partitionLoop entry size bound fuel (accumulated + len) (i + 1)
    else []

/-- The partition list computed by `PartitionTensor` for `entry`. -/
def partitions (entry : TensorTableEntry) (bound : Nat) : List TensorTableEntry :=
  partitionLoop entry (entrySize entry) bound (entrySize entry) 0 0

/-- `PartitionTensor` from `operations.cc`: `BPS_CHECK(entry->counter_ptr)`,
then the partition loop. -/
def PartitionTensor (entry : TensorTableEntry) (bound : Nat) :
    Except BpsError (List TensorTableEntry) :=
  if entry.counter_ptr then Except.ok (partitions entry bound)
  else Except.error (BpsError.invariantViolation "counter pointer is null")

/-- Ceiling division `(a + b - 1) / b`, the `// round up` partition-count
formula of `operations.cc`. -/
def cdiv (a b : Nat) : Nat := (a + b - 1) / b

theorem cdiv_zero_left (b : Nat) : cdiv 0 b = 0 := by
  cases b with
  | zero => rfl
  | succ n =>
    show (0 + (n + 1) - 1) / (n + 1) = 0
    exact Nat.div_eq_of_lt (by omega)

theorem cdiv_of_pos_le {d b : Nat} (h1 : 0 < d) (h2 : d ≤ b) : cdiv d b = 1 := by
  unfold cdiv
  exact Nat.div_eq_of_lt_le (by omega) (by omega)

theorem cdiv_of_gt {d b : Nat} (h : b < d) (hb : 0 < b) :
    cdiv d b = cdiv (d - b) b + 1 := by
  unfold cdiv
  have he : d + b - 1 = (d - b + b - 1) + b := by omega
  rw [he, Nat.add_div_right _ hb]

theorem partitionLoop_of_le (entry : TensorTableEntry) (size bound : Nat)
    (fuel accumulated i : Nat) (h : size ≤ accumulated) :
    partitionLoop entry size bound fuel accumulated i = [] := by
  cases fuel with
  | zero => rfl
  | succ fuel => simp [partitionLoop, Nat.not_lt.mpr h]

/-- Closed form of the partition loop: starting at `accumulated`, it emits
one child per `bound`-sized step of the remaining byte range. -/
theorem partitionLoop_eq_map (entry : TensorTableEntry) (size bound : Nat)
    (hb : 0 < bound) :
    ∀ fuel accumulated i, size - accumulated ≤ fuel * bound →
      partitionLoop entry size bound fuel accumulated i =
        (List.range (cdiv (size - accumulated) bound)).map
          (fun j => partChild entry (i + j) (accumulated + j * bound)
            (min bound (size - accumulated - j * bound))) := by
  intro fuel
  induction fuel with
  | zero =>
    intro accumulated i hle
    have h0 : size - accumulated = 0 := by simpa using hle
    rw [partitionLoop_of_le _ _ _ _ _ _ (by omega), h0, cdiv_zero_left]
    rfl
  | succ fuel ih =>
    intro accumulated i hle
    by_cases hlt : accumulated < size
    · have hstep : (fuel + 1) * bound = fuel * bound + bound := by
        rw [Nat.succ_mul]
      by_cases hgt : size - accumulated > bound
      · -- a full `bound`-sized slice, then recurse
        rw [cdiv_of_gt hgt hb, List.range_succ_eq_map, List.map_cons, List.map_map]
        simp only [partitionLoop, if_pos hlt, if_pos hgt]
        rw [List.cons.injEq]
        constructor
        · simp [Nat.min_eq_left (Nat.le_of_lt hgt)]
        · rw [ih (accumulated + bound) (i + 1) (by omega)]
          have harg : size - (accumulated + bound) = size - accumulated - bound := by
            omega
          rw [harg]
          apply List.map_congr_left
          intro j _
          simp only [Function.comp, Nat.succ_eq_add_one, Nat.add_mul, Nat.one_mul]
          congr 1
          · omega
          · omega
          · congr 1
            omega
      · -- the final, partial slice
        have hd : 0 < size - accumulated := by omega
        rw [cdiv_of_pos_le hd (by omega)]
        simp only [partitionLoop, if_pos hlt, if_neg hgt]
        rw [partitionLoop_of_le _ _ _ _ _ _ (by omega)]
        rw [show List.range 1 = [0] from rfl]
        simp [Nat.min_eq_right (by omega : size - accumulated ≤ bound)]
    · rw [partitionLoop_of_le _ _ _ _ _ _ (by omega)]
      have h0 : size - accumulated = 0 := by omega
      rw [h0, cdiv_zero_left]
      rfl

/-- The child lengths emitted by the loop sum to the remaining byte range. -/
theorem partitionLoop_sum (entry : TensorTableEntry) (size bound : Nat) :
    ∀ fuel accumulated i, size - accumulated ≤ fuel * bound →
      ((partitionLoop entry size bound fuel accumulated i).map
        (fun e => e.len)).sum = size - accumulated := by
  intro fuel
  induction fuel with
  | zero =>
    intro accumulated i hle
    have h0 : size - accumulated = 0 := by simpa using hle
    rw [partitionLoop_of_le _ _ _ _ _ _ (by omega), h0]
    rfl
  | succ fuel ih =>
    intro accumulated i hle
    have hstep : (fuel + 1) * bound = fuel * bound + bound := by rw [Nat.succ_mul]
    by_cases hlt : accumulated < size
    · simp only [partitionLoop, if_pos hlt, List.map_cons, List.sum_cons]
      by_cases hgt : size - accumulated > bound
      · rw [if_pos hgt, ih (accumulated + bound) (i + 1) (by omega)]
        show bound + (size - (accumulated + bound)) = size - accumulated
        omega
      · rw [if_neg hgt,
          ih (accumulated + (size - accumulated)) (i + 1) (by omega)]
        show (size - accumulated) + (size - (accumulated + (size - accumulated)))
            = size - accumulated
        omega
    · rw [partitionLoop_of_le _ _ _ _ _ _ (by omega)]
      show 0 = size - accumulated
      omega

/-- No child emitted by the loop carries a key. -/
theorem partitionLoop_key_none (entry : TensorTableEntry) (size bound : Nat) :
    ∀ fuel accumulated i,
      ∀ x ∈ partitionLoop entry size bound fuel accumulated i, x.key = none := by
  intro fuel
  induction fuel with
  | zero => intro accumulated i x hx; simp [partitionLoop] at hx
  | succ fuel ih =>
    intro accumulated i x hx
    by_cases hlt : accumulated < size
    · simp only [partitionLoop, if_pos hlt, List.mem_cons] at hx
      rcases hx with hx | hx
      · rw [hx]; rfl
      · exact ih _ _ x hx
    · rw [partitionLoop_of_le _ _ _ _ _ _ (by omega)] at hx
      simp at hx

theorem size_le_size_mul {size bound : Nat} (hb : 0 < bound) :
    size ≤ size * bound := by
  calc size = size * 1 := by rw [Nat.mul_one]
    _ ≤ size * bound := Nat.mul_le_mul_left size hb

/-- Closed form of `partitions`. -/
theorem partitions_eq (entry : TensorTableEntry) (bound : Nat) (hb : 0 < bound) :
    partitions entry bound =
      (List.range (cdiv (entrySize entry) bound)).map
        (fun j => partChild entry j (j * bound)
          (min bound (entrySize entry - j * bound))) := by
  unfold partitions
  rw [partitionLoop_eq_map entry _ bound hb _ 0 0 (by simpa using size_le_size_mul hb)]
  simp

theorem partitions_length (entry : TensorTableEntry) (bound : Nat) (hb : 0 < bound) :
    (partitions entry bound).length = cdiv (entrySize entry) bound := by
  rw [partitions_eq entry bound hb]
  simp

theorem partitions_sum (entry : TensorTableEntry) (bound : Nat) (hb : 0 < bound) :
    ((partitions entry bound).map (fun e => e.len)).sum = entrySize entry := by
  unfold partitions
  rw [partitionLoop_sum entry _ bound _ 0 0 (by simpa using size_le_size_mul hb)]
  omega

/-- Outcome of a call to `EnqueueTensor`: the fatal `BPS_CHECK` failure if one
fired, the tasks appended to a stage queue (paired with the queue they were
appended to), and the synchronous callback invocations. -/
structure EnqueueOutcome where
  error : Option BpsError
  enqueued : List (QueueType × TensorTableEntry)
  callbacks : List Status
deriving DecidableEq, Repr

/-- The guarded check at the top of `EnqueueTensor`:
`BPS_CHECK_EQ(input->size(), output->size())` runs only when both shared
pointers are non-null. -/
def sizeMismatch : Option Nat → Option Nat → Bool
  | some si, some so => si != so
  | _, _ => false

/-- The parent task `e` that `EnqueueTensor` builds from its arguments:
fresh zero counter, `total_partnum = |context.key_list|`, buffers copied
from the context, key unassigned. -/
def enqueueEntry (context : BPSContext) (input output : Option Nat)
    (name : String) (device priority version : Int)
    (queue_list : List QueueType) : TensorTableEntry :=
  { tensor_name := name
    key := none
    tensor := input
    output := output
    offset := 0
    len := 0
    cpubuff := context.cpubuff
    pcie_cpubuff := context.pcie_cpubuff
    device := device
    priority := priority
    version := version
    queue_list := queue_list
    counter_ptr := true
    total_partnum := context.key_list.length }

/-- `EnqueueTensor` from `operations.cc`: size check, parent construction,
partitioning, key-count check, empty-itinerary short circuit, key assignment
and appends to the head stage's queue, and the final accumulated-size check
(`unsigned int` accumulator, hence the `% 2 ^ 32`). -/
def EnqueueTensor (g : Globals) (context : BPSContext)
    (input output : Option Nat) (name : String)
    (device priority version : Int) (queue_list : List QueueType) :
    EnqueueOutcome :=
  if sizeMismatch input output then
    { error := some (BpsError.invariantViolation "output tensor size does not match")
      enqueued := [], callbacks := [] }
  else
    match PartitionTensor
        (enqueueEntry context input output name device priority version queue_list)
        g.partition_bound with
    | Except.error err => { error := some err, enqueued := [], callbacks := [] }
    | Except.ok parts =>
      if context.key_list.length ≠ parts.length then
        { error := some (BpsError.invariantViolation "key_list size does not match partitions")
          enqueued := [], callbacks := [] }
      else
        -- `e->queue_list` is a copy of `*queue_list`
        match queue_list with
        | [] => { error := none, enqueued := [], callbacks := [Status.ok] }
        | q :: _ =>
          let tasks := List.zipWith (fun p k => { p with key := some k })
            parts context.key_list
          let accumulated := ((tasks.map (fun t => t.len)).sum) % 2 ^ 32
          if accumulated ≠
              entrySize (enqueueEntry context input output name device priority version queue_list) then
            { error := some (BpsError.invariantViolation
                "accumulated partition size not equal to original tensor size")
              enqueued := tasks.map (fun t => (q, t)), callbacks := [] }
          else
            { error := none, enqueued := tasks.map (fun t => (q, t)), callbacks := [] }

theorem map_key_zipWith (ps : List TensorTableEntry) (ks : List Nat)
    (h : ps.length = ks.length) :
    (List.zipWith (fun p k => { p with key := some k }) ps ks).map
      (fun t => t.key) = ks.map some := by
  induction ps generalizing ks with
  | nil => cases ks with
    | nil => rfl
    | cons k ks => simp at h
  | cons p ps ih =>
    cases ks with
    | nil => simp at h
    | cons k ks => simp [ih ks (by simpa using h)]

theorem map_len_zipWith (ps : List TensorTableEntry) (ks : List Nat)
    (h : ps.length = ks.length) :
    (List.zipWith (fun p k => { p with key := some k }) ps ks).map
      (fun t => t.len) = ps.map (fun t => t.len) := by
  induction ps generalizing ks with
  | nil => cases ks with
    | nil => rfl
    | cons k ks => simp at h
  | cons p ps ih =>
    cases ks with
    | nil => simp at h
    | cons k ks => simp [ih ks (by simpa using h)]

/-- Shared stepping lemma: with the size check passing and the key count
matching, `EnqueueTensor` on an empty itinerary short-circuits to a
synchronous OK callback. -/
theorem enqueueTensor_nil_queue (g : Globals) (context : BPSContext)
    (input output : Option Nat) (name : String) (device priority version : Int)
    (hb : 0 < g.partition_bound)
    (hsz : sizeMismatch input output = false)
    (hkeys : context.key_list.length = cdiv (tensorSize input output) g.partition_bound) :
    EnqueueTensor g context input output name device priority version [] =
      { error := none, enqueued := [], callbacks := [Status.ok] } := by
  have hlen : context.key_list.length =
      (partitions (enqueueEntry context input output name device priority version [])
        g.partition_bound).length := by
    rw [partitions_length _ _ hb]
    exact hkeys
  have hc : (enqueueEntry context input output name device priority version []).counter_ptr
      = true := rfl
  unfold EnqueueTensor PartitionTensor
  simp [hsz, hc, ← hlen]

/-- Shared stepping lemma: with the size check passing and the key count
matching, `EnqueueTensor` on a non-empty itinerary appends to the head
queue the partitioned tasks with keys `key_list[i]` assigned in order. -/
theorem enqueueTensor_cons_enqueued (g : Globals) (context : BPSContext)
    (input output : Option Nat) (name : String) (device priority version : Int)
    (q : QueueType) (rest : List QueueType)
    (hb : 0 < g.partition_bound)
    (hsz : sizeMismatch input output = false)
    (hkeys : context.key_list.length = cdiv (tensorSize input output) g.partition_bound) :
    (EnqueueTensor g context input output name device priority version (q :: rest)).enqueued =
      (List.zipWith (fun p k => { p with key := some k })
        (partitions (enqueueEntry context input output name device priority version (q :: rest))
          g.partition_bound)
        context.key_list).map (fun t => (q, t)) := by
  have hlen : context.key_list.length =
      (partitions (enqueueEntry context input output name device priority version (q :: rest))
        g.partition_bound).length := by
    rw [partitions_length _ _ hb]
    exact hkeys
  have hc : (enqueueEntry context input output name device priority version (q :: rest)).counter_ptr
      = true := rfl
  unfold EnqueueTensor PartitionTensor
  simp only [hsz, Bool.false_eq_true, if_false, hc, if_true, ← hlen, ne_eq, not_true_eq_false,
    ite_false, ite_true]
  split <;> rfl

/-- A sample registration record: three keys for nine bytes at bound four. -/
def sampleContext : BPSContext :=
  { key_list := [10, 11, 12]
    buff_len := 9
    cpubuff := some 10
    pcie_cpubuff := []
    reuse_buff := true
    initialized := false }

/-- A sample parent task of nine bytes. -/
def sampleEntry : TensorTableEntry :=
  { tensor_name := "grad0"
    key := none
    tensor := some 9
    output := some 9
    offset := 0
    len := 0
    cpubuff := some 10
    pcie_cpubuff := []
    device := 0
    priority := 0
    version := 0
    queue_list := [QueueType.REDUCE]
    counter_ptr := true
    total_partnum := 3 }

/-- **C7.** When both input and output are present with different byte sizes,
`EnqueueTensor` fails with `InvariantViolation` before any partition is
created or enqueued: nothing is appended to any queue and the callback is not
invoked. -/
theorem enqueue_size_mismatch_aborts (g : Globals) (context : BPSContext)
    (si so : Nat) (name : String) (device priority version : Int)
    (queue_list : List QueueType) (h : si ≠ so) :
    EnqueueTensor g context (some si) (some so) name device priority version queue_list =
      { error := some (BpsError.invariantViolation "output tensor size does not match")
        enqueued := [], callbacks := [] } := by
  have hm : sizeMismatch (some si) (some so) = true := by
    simp [sizeMismatch, h]
  unfold EnqueueTensor
  simp [hm]

/-- Witness for C7: a 1-byte input against a 2-byte output. -/
theorem enqueue_size_mismatch_aborts_witness :
    (1 : Nat) ≠ 2 ∧
      EnqueueTensor sampleGlobals sampleContext (some 1) (some 2) "t" 0 0 0
          [QueueType.REDUCE] =
        { error := some (BpsError.invariantViolation "output tensor size does not match")
          enqueued := [], callbacks := [] } :=
  ⟨by decide,
   enqueue_size_mismatch_aborts sampleGlobals sampleContext 1 2 "t" 0 0 0
     [QueueType.REDUCE] (by decide)⟩

/-- **C5.** For `device = CPU_DEVICE_ID` both itineraries are empty, and
`EnqueueTensor` called with that empty itinerary invokes the callback with OK
synchronously and returns OK without appending any task to any queue. -/
theorem cpu_short_circuit (g : Globals) (context : BPSContext)
    (input output : Option Nat) (name : String) (priority version : Int)
    (hb : 0 < g.partition_bound)
    (hsz : sizeMismatch input output = false)
    (hkeys : context.key_list.length = cdiv (tensorSize input output) g.partition_bound) :
    GetPushQueueList g CPU_DEVICE_ID = [] ∧
    GetPullQueueList g CPU_DEVICE_ID = [] ∧
    EnqueueTensor g context input output name CPU_DEVICE_ID priority version
        (GetPushQueueList g CPU_DEVICE_ID) =
      { error := none, enqueued := [], callbacks := [Status.ok] } := by
  have hpush : GetPushQueueList g CPU_DEVICE_ID = [] := by simp [GetPushQueueList]
  have hpull : GetPullQueueList g CPU_DEVICE_ID = [] := by simp [GetPullQueueList]
  refine ⟨hpush, hpull, ?_⟩
  rw [hpush]
  exact enqueueTensor_nil_queue g context input output name CPU_DEVICE_ID priority version
    hb hsz hkeys

/-- Witness for C5: nine bytes, bound four, three keys. -/
theorem cpu_short_circuit_witness :
    (0 < sampleGlobals.partition_bound ∧
     sizeMismatch (some 9) (some 9) = false ∧
     sampleContext.key_list.length =
       cdiv (tensorSize (some 9) (some 9)) sampleGlobals.partition_bound) ∧
    (GetPushQueueList sampleGlobals CPU_DEVICE_ID = [] ∧
     GetPullQueueList sampleGlobals CPU_DEVICE_ID = [] ∧
     EnqueueTensor sampleGlobals sampleContext (some 9) (some 9) "t" CPU_DEVICE_ID 0 0
         (GetPushQueueList sampleGlobals CPU_DEVICE_ID) =
       { error := none, enqueued := [], callbacks := [Status.ok] }) :=
  ⟨⟨by decide, by decide, by decide⟩,
   cpu_short_circuit sampleGlobals sampleContext (some 9) (some 9) "t" 0 0
     (by decide) (by decide) (by decide)⟩

/-- **C9.** The short circuit is decided solely by the emptiness of the
supplied `queue_list`, not by the device: with an empty itinerary, whatever
the device, the callback fires synchronously with OK and nothing is enqueued
-- but only after the partition-count assertion has passed; if that count
assertion fails, the call aborts even though the itinerary is empty. -/
theorem empty_queue_list_decides_short_circuit (g : Globals) (context : BPSContext)
    (input output : Option Nat) (name : String) (device priority version : Int)
    (hb : 0 < g.partition_bound)
    (hsz : sizeMismatch input output = false) :
    (context.key_list.length = cdiv (tensorSize input output) g.partition_bound →
      EnqueueTensor g context input output name device priority version [] =
        { error := none, enqueued := [], callbacks := [Status.ok] }) ∧
    (context.key_list.length ≠ cdiv (tensorSize input output) g.partition_bound →
      EnqueueTensor g context input output name device priority version [] =
        { error := some (BpsError.invariantViolation "key_list size does not match partitions")
          enqueued := [], callbacks := [] }) := by
  constructor
  · intro hkeys
    exact enqueueTensor_nil_queue g context input output name device priority version hb hsz hkeys
  · intro hkeys
    have hlen : context.key_list.length ≠
        (partitions (enqueueEntry context input output name device priority version [])
          g.partition_bound).length := by
      rw [partitions_length _ _ hb]
      exact hkeys
    have hc : (enqueueEntry context input output name device priority version []).counter_ptr
        = true := rfl
    unfold EnqueueTensor PartitionTensor
    simp [hsz, hc, hlen]

/-- Witness for C9 at device 7 (a non-CPU device). -/
theorem empty_queue_list_decides_short_circuit_witness :
    (0 < sampleGlobals.partition_bound ∧ sizeMismatch (some 9) none = false) ∧
    ((sampleContext.key_list.length =
        cdiv (tensorSize (some 9) none) sampleGlobals.partition_bound →
      EnqueueTensor sampleGlobals sampleContext (some 9) none "t" 7 0 0 [] =
        { error := none, enqueued := [], callbacks := [Status.ok] }) ∧
     (sampleContext.key_list.length ≠
        cdiv (tensorSize (some 9) none) sampleGlobals.partition_bound →
      EnqueueTensor sampleGlobals sampleContext (some 9) none "t" 7 0 0 [] =
        { error := some (BpsError.invariantViolation "key_list size does not match partitions")
          enqueued := [], callbacks := [] })) :=
  ⟨⟨by decide, by decide⟩,
   empty_queue_list_decides_short_circuit sampleGlobals sampleContext (some 9) none "t" 7 0 0
     (by decide) (by decide)⟩

/-- **C6.** On a non-empty itinerary, the i-th partition is assigned key
`context.key_list[i]` before being appended to the head stage's queue, and
`PartitionTensor` itself assigns no key to any child. -/
theorem enqueue_key_assignment (g : Globals) (context : BPSContext)
    (input output : Option Nat) (name : String) (device priority version : Int)
    (q : QueueType) (rest : List QueueType)
    (hb : 0 < g.partition_bound)
    (hsz : sizeMismatch input output = false)
    (hkeys : context.key_list.length = cdiv (tensorSize input output) g.partition_bound) :
    ((EnqueueTensor g context input output name device priority version (q :: rest)).enqueued.map
        (fun t => t.2.key)) = context.key_list.map some ∧
    (∀ t ∈ (EnqueueTensor g context input output name device priority version (q :: rest)).enqueued,
        t.1 = q) ∧
    (∀ entry bound, ∀ x ∈ partitions entry bound, x.key = none) := by
  have hplen : (partitions (enqueueEntry context input output name device priority version
      (q :: rest)) g.partition_bound).length = context.key_list.length := by
    rw [partitions_length _ _ hb]
    exact hkeys.symm
  have henq := enqueueTensor_cons_enqueued g context input output name device priority version
    q rest hb hsz hkeys
  refine ⟨?_, ?_, ?_⟩
  · rw [henq, List.map_map]
    exact map_key_zipWith _ _ hplen
  · intro t ht
    rw [henq] at ht
    simp only [List.mem_map] at ht
    obtain ⟨x, _, hx⟩ := ht
    rw [← hx]
  · intro entry bound x hx
    exact partitionLoop_key_none entry (entrySize entry) bound (entrySize entry) 0 0 x hx

/-- Witness for C6: nine bytes, bound four, keys `[10, 11, 12]`. -/
theorem enqueue_key_assignment_witness :
    (0 < sampleGlobals.partition_bound ∧
     sizeMismatch (some 9) (some 9) = false ∧
     sampleContext.key_list.length =
       cdiv (tensorSize (some 9) (some 9)) sampleGlobals.partition_bound) ∧
    (((EnqueueTensor sampleGlobals sampleContext (some 9) (some 9) "t" 0 0 0
          (QueueType.REDUCE :: [])).enqueued.map (fun t => t.2.key)) =
        sampleContext.key_list.map some ∧
     (∀ t ∈ (EnqueueTensor sampleGlobals sampleContext (some 9) (some 9) "t" 0 0 0
          (QueueType.REDUCE :: [])).enqueued, t.1 = QueueType.REDUCE) ∧
     (∀ entry bound, ∀ x ∈ partitions entry bound, x.key = none)) :=
  ⟨⟨by decide, by decide, by decide⟩,
   enqueue_key_assignment sampleGlobals sampleContext (some 9) (some 9) "t" 0 0 0
     QueueType.REDUCE [] (by decide) (by decide) (by decide)⟩

/-- **C3.** For positive parent byte size S and partition bound B > 0:
`PartitionTensor` emits exactly ⌈S/B⌉ children, the i-th with
`offset = i·B` and `len = min(B, S − i·B)`, whose lens sum to S; and
`EnqueueTensor` asserts that the partition count equals `|context.key_list|`
(it can only return OK when they agree) and that the summed lens equal the
parent tensor size (the assert passes on the non-empty path, and the
enqueued lens do sum to the parent size). -/
theorem partition_formula (entry : TensorTableEntry) (bound : Nat)
    (g : Globals) (context : BPSContext) (input output : Option Nat)
    (name : String) (device priority version : Int) (q : QueueType)
    (rest : List QueueType)
    (hb : 0 < bound) (hS : 0 < entrySize entry)
    (hg : g.partition_bound = bound)
    (hsz : sizeMismatch input output = false)
    (hkeys : context.key_list.length = cdiv (tensorSize input output) bound)
    (hS32 : tensorSize input output < 2 ^ 32) :
    (partitions entry bound).length = cdiv (entrySize entry) bound ∧
    (∀ i, ∀ h : i < (partitions entry bound).length,
      ((partitions entry bound).get ⟨i, h⟩).offset = i * bound ∧
      ((partitions entry bound).get ⟨i, h⟩).len = min bound (entrySize entry - i * bound)) ∧
    ((partitions entry bound).map (fun e => e.len)).sum = entrySize entry ∧
    (entry.counter_ptr = true →
      PartitionTensor entry bound = Except.ok (partitions entry bound)) ∧
    (∀ context2 : BPSContext, ∀ ql : List QueueType,
      (EnqueueTensor g context2 input output name device priority version ql).error = none →
      context2.key_list.length = cdiv (tensorSize input output) bound) ∧
    (EnqueueTensor g context input output name device priority version (q :: rest)).error
      = none ∧
    ((EnqueueTensor g context input output name device priority version (q :: rest)).enqueued.map
      (fun t => t.2.len)).sum = tensorSize input output := by
  have hb' : 0 < g.partition_bound := by rw [hg]; exact hb
  have hkeys' : context.key_list.length = cdiv (tensorSize input output) g.partition_bound := by
    rw [hg]; exact hkeys
  have hplen : (partitions (enqueueEntry context input output name device priority version
      (q :: rest)) g.partition_bound).length = context.key_list.length := by
    rw [partitions_length _ _ hb']
    exact hkeys'.symm
  have htasks : ((List.zipWith (fun p k => { p with key := some k })
      (partitions (enqueueEntry context input output name device priority version (q :: rest))
        g.partition_bound)
      context.key_list).map (fun t => t.len)).sum = tensorSize input output := by
    rw [map_len_zipWith _ _ hplen]
    exact partitions_sum (enqueueEntry context input output name device priority version
      (q :: rest)) g.partition_bound hb'
  refine ⟨partitions_length entry bound hb, ?_, partitions_sum entry bound hb, ?_, ?_, ?_, ?_⟩
  · intro i h
    have hrw := partitions_eq entry bound hb
    rw [List.get_eq_getElem]
    simp only [hrw, List.getElem_map, List.getElem_range]
    exact ⟨rfl, rfl⟩
  · intro hc
    unfold PartitionTensor
    rw [if_pos hc]
  · intro context2 ql he
    by_contra hne
    have hlen : context2.key_list.length ≠
        (partitions (enqueueEntry context2 input output name device priority version ql)
          g.partition_bound).length := by
      rw [partitions_length _ _ hb']
      rw [hg]
      exact hne
    have hc : (enqueueEntry context2 input output name device priority version ql).counter_ptr
        = true := rfl
    unfold EnqueueTensor PartitionTensor at he
    simp [hsz, hc, hlen] at he
  · have hc : (enqueueEntry context input output name device priority version
        (q :: rest)).counter_ptr = true := rfl
    have hmod : ((List.zipWith (fun p k => { p with key := some k })
        (partitions (enqueueEntry context input output name device priority version (q :: rest))
          g.partition_bound)
        context.key_list).map (fun t => t.len)).sum % 2 ^ 32 =
        entrySize (enqueueEntry context input output name device priority version (q :: rest)) := by
      rw [htasks, Nat.mod_eq_of_lt hS32]
      rfl
    unfold EnqueueTensor PartitionTensor
    simp only [hsz, Bool.false_eq_true, if_false, hc, ← hplen]
    simp only [ne_eq, not_true_eq_false, ite_false, ite_true]
    split
    · next hcond => exact absurd hmod hcond
    · rfl
  · have henq := enqueueTensor_cons_enqueued g context input output name device priority version
      q rest hb' hsz hkeys'
    rw [henq, List.map_map]
    exact htasks

/-- Witness for C3: nine bytes at bound four give three partitions of lens
4, 4, 1. -/
theorem partition_formula_witness :
    (0 < 4 ∧ 0 < entrySize sampleEntry ∧
     sampleGlobals.partition_bound = 4 ∧
     sizeMismatch (some 9) (some 9) = false ∧
     sampleContext.key_list.length = cdiv (tensorSize (some 9) (some 9)) 4 ∧
     tensorSize (some 9) (some 9) < 2 ^ 32) ∧
    ((partitions sampleEntry 4).length = cdiv (entrySize sampleEntry) 4 ∧
     (∀ i, ∀ h : i < (partitions sampleEntry 4).length,
       ((partitions sampleEntry 4).get ⟨i, h⟩).offset = i * 4 ∧
       ((partitions sampleEntry 4).get ⟨i, h⟩).len = min 4 (entrySize sampleEntry - i * 4)) ∧
     ((partitions sampleEntry 4).map (fun e => e.len)).sum = entrySize sampleEntry ∧
     (sampleEntry.counter_ptr = true →
       PartitionTensor sampleEntry 4 = Except.ok (partitions sampleEntry 4)) ∧
     (∀ context2 : BPSContext, ∀ ql : List QueueType,
       (EnqueueTensor sampleGlobals context2 (some 9) (some 9) "t" 0 0 0 ql).error = none →
       context2.key_list.length = cdiv (tensorSize (some 9) (some 9)) 4) ∧
     (EnqueueTensor sampleGlobals sampleContext (some 9) (some 9) "t" 0 0 0
        (QueueType.REDUCE :: [])).error = none ∧
     ((EnqueueTensor sampleGlobals sampleContext (some 9) (some 9) "t" 0 0 0
        (QueueType.REDUCE :: [])).enqueued.map (fun t => t.2.len)).sum =
       tensorSize (some 9) (some 9)) :=
  ⟨⟨by decide, by decide, by decide, by decide, by decide, by decide⟩,
   partition_formula sampleEntry 4 sampleGlobals sampleContext (some 9) (some 9) "t" 0 0 0
     QueueType.REDUCE [] (by decide) (by decide) (by decide) (by decide) (by decide) (by decide)⟩

/-- Request types of the parameter-server command encoding; `operations.cc`
only uses `kDefaultPushPull`. -/
inductive RequestType where
  | kDefaultPushPull
deriving DecidableEq, Repr

/-- Modelled from the spec: `GetCommandType(RequestType::kDefaultPushPull,
dtype)` is declared in `common.h`, outside `src/`; the spec calls it "command
`DefaultPushPull(dtype)`", so a command is identified by its request type and
dtype. -/
def GetCommandType (req : RequestType) (dtype : Int) : RequestType × Int :=
  (req, dtype)

/-- Modelled from the spec: the shared-memory allocator's
`openSharedMemory(key, size)` is an external collaborator (spec §6), not
under `src/`; a region is identified here by the key it was opened with. -/
def openSharedMemory (key : Nat) (_size : Nat) : Nat := key

/-- Modelled from the spec: `openPcieSharedMemory(key, size)` "returning the
list of per-switch buffers" (spec §6) is an external collaborator, not under
`src/`; modelled as a one-switch list. -/
def openPcieSharedMemory (key : Nat) (_size : Nat) : List Nat := [key]

/-- One blocking `ZPush` issued during init: the partition key, its byte
length, and the command. -/
structure PushCall where
  key : Nat
  len : Nat
  cmd : RequestType × Int
deriving DecidableEq, Repr

/-- The observable external effects of `InitTensor`: the blocking pushes
issued (in order) and the number of worker-group barrier entries. -/
structure InitEffects where
  pushes : List PushCall
  barriers : Nat
deriving DecidableEq, Repr

/-- The `while (accumulated < size)` loop of `InitTensor`, with a fuel
argument (first explicit `Nat`); returns the pushes issued, the barrier
count, and the final `accumulated` and `i`. -/
def initLoop (g : Globals) (dtype : Int) (key_list : List Nat) (size bound : Nat) :
    Nat → Nat → Nat → List PushCall × Nat × Nat × Nat
  | 0, accumulated, i => ([], 0, accumulated, i)
  | fuel + 1, accumulated, i =>
    if accumulated < size then
      let key := key_list.getD i 0
      let len := if size - accumulated > bound then bound else size - accumulated
      let here : List PushCall × Nat :=
        if g.is_distributed && g.is_root_device then
          ((if g.worker_id = 0 then
              [{ key := key, len := len
                 cmd := GetCommandType RequestType.kDefaultPushPull dtype }]
            else []), 1)
        else ([], 0)
      let rest := initLoop g dtype key_list size bound fuel (accumulated + len) (i + 1)
      (here.1 ++ rest.1, here.2 + rest.2.1, rest.2.2)
    else ([], 0, accumulated, i)


/-- The init loop drives `accumulated` up to `size`. -/
theorem initLoop_acc (g : Globals) (dtype : Int) (key_list : List Nat)
    (size bound : Nat) (hb : 0 < bound) :
    ∀ fuel accumulated i, size - accumulated ≤ fuel * bound → accumulated ≤ size →
      (initLoop g dtype key_list size bound fuel accumulated i).2.2.1 = size := by
  intro fuel
  induction fuel with
  | zero =>
    intro accumulated i hle hacc
    have : accumulated = size := by
      have := Nat.zero_mul bound
      omega
    simp [initLoop, this]
  | succ fuel ih =>
    intro accumulated i hle hacc
    have hstep : (fuel + 1) * bound = fuel * bound + bound := by rw [Nat.succ_mul]
    by_cases hlt : accumulated < size
    · simp only [initLoop, if_pos hlt]
      by_cases hgt : size - accumulated > bound
      · simp only [if_pos hgt]
        exact ih (accumulated + bound) (i + 1) (by omega) (by omega)
      · simp only [if_neg hgt]
        exact ih (accumulated + (size - accumulated)) (i + 1) (by omega) (by omega)
    · have : accumulated = size := by omega
      simp [initLoop, this]

/-- The init loop leaves `i` equal to the number of slices processed. -/
theorem initLoop_i (g : Globals) (dtype : Int) (key_list : List Nat)
    (size bound : Nat) (hb : 0 < bound) :
    ∀ fuel accumulated i, size - accumulated ≤ fuel * bound →
      (initLoop g dtype key_list size bound fuel accumulated i).2.2.2 =
        i + cdiv (size - accumulated) bound := by
  intro fuel
  induction fuel with
  | zero =>
    intro accumulated i hle
    have h0 : size - accumulated = 0 := by simpa using hle
    simp [initLoop, h0, cdiv_zero_left]
  | succ fuel ih =>
    intro accumulated i hle
    have hstep : (fuel + 1) * bound = fuel * bound + bound := by rw [Nat.succ_mul]
    by_cases hlt : accumulated < size
    · simp only [initLoop, if_pos hlt]
      by_cases hgt : size - accumulated > bound
      · have hcd : cdiv (size - accumulated) bound =
            cdiv (size - accumulated - bound) bound + 1 := cdiv_of_gt hgt hb
        simp only [if_pos hgt]
        rw [ih (accumulated + bound) (i + 1) (by omega)]
        have harg : size - (accumulated + bound) = size - accumulated - bound := by omega
        rw [harg, hcd]
        omega
      · have hd : 0 < size - accumulated := by omega
        have hcd : cdiv (size - accumulated) bound = 1 := cdiv_of_pos_le hd (by omega)
        simp only [if_neg hgt]
        rw [ih (accumulated + (size - accumulated)) (i + 1) (by omega)]
        have harg : size - (accumulated + (size - accumulated)) = 0 := by omega
        rw [harg, cdiv_zero_left, hcd]
    · have h0 : size - accumulated = 0 := by omega
      simp [initLoop, hlt, h0, cdiv_zero_left]

/-- The init loop enters the barrier once per slice, exactly on distributed
root devices, for every worker ID. -/
theorem initLoop_barriers (g : Globals) (dtype : Int) (key_list : List Nat)
    (size bound : Nat) (hb : 0 < bound) :
    ∀ fuel accumulated i, size - accumulated ≤ fuel * bound →
      (initLoop g dtype key_list size bound fuel accumulated i).2.1 =
        if g.is_distributed && g.is_root_device then cdiv (size - accumulated) bound
        else 0 := by
  intro fuel
  induction fuel with
  | zero =>
    intro accumulated i hle
    have h0 : size - accumulated = 0 := by simpa using hle
    simp [initLoop, h0, cdiv_zero_left]
  | succ fuel ih =>
    intro accumulated i hle
    have hstep : (fuel + 1) * bound = fuel * bound + bound := by rw [Nat.succ_mul]
    by_cases hlt : accumulated < size
    · simp only [initLoop, if_pos hlt]
      by_cases hgt : size - accumulated > bound
      · have hcd : cdiv (size - accumulated) bound =
            cdiv (size - accumulated - bound) bound + 1 := cdiv_of_gt hgt hb
        simp only [if_pos hgt]
        rw [ih (accumulated + bound) (i + 1) (by omega)]
        have harg : size - (accumulated + bound) = size - accumulated - bound := by omega
        rw [harg, hcd]
        by_cases hdr : (g.is_distributed && g.is_root_device) = true <;>
          simp [hdr] <;> omega
      · have hd : 0 < size - accumulated := by omega
        have hcd : cdiv (size - accumulated) bound = 1 := cdiv_of_pos_le hd (by omega)
        simp only [if_neg hgt]
        rw [ih (accumulated + (size - accumulated)) (i + 1) (by omega)]
        have harg : size - (accumulated + (size - accumulated)) = 0 := by omega
        rw [harg, cdiv_zero_left, hcd]
        by_cases hdr : (g.is_distributed && g.is_root_device) = true <;>
          simp [hdr] <;> omega
    · have h0 : size - accumulated = 0 := by omega
      simp [initLoop, hlt, h0, cdiv_zero_left]

/-- The init loop issues one blocking push per slice, keyed `key_list[i]`,
exactly on distributed root devices whose worker ID is 0. -/
theorem initLoop_pushes (g : Globals) (dtype : Int) (key_list : List Nat)
    (size bound : Nat) (hb : 0 < bound) :
    ∀ fuel accumulated i, size - accumulated ≤ fuel * bound →
      (initLoop g dtype key_list size bound fuel accumulated i).1 =
        if g.is_distributed && g.is_root_device then
          (if g.worker_id = 0 then
            (List.range (cdiv (size - accumulated) bound)).map (fun j =>
              { key := key_list.getD (i + j) 0
                len := min bound (size - accumulated - j * bound)
                cmd := GetCommandType RequestType.kDefaultPushPull dtype })
           else [])
        else [] := by
  intro fuel
  induction fuel with
  | zero =>
    intro accumulated i hle
    have h0 : size - accumulated = 0 := by simpa using hle
    simp [initLoop, h0, cdiv_zero_left]
  | succ fuel ih =>
    intro accumulated i hle
    have hstep : (fuel + 1) * bound = fuel * bound + bound := by rw [Nat.succ_mul]
    by_cases hlt : accumulated < size
    · simp only [initLoop, if_pos hlt]
      by_cases hgt : size - accumulated > bound
      · have hcd : cdiv (size - accumulated) bound =
            cdiv (size - accumulated - bound) bound + 1 := cdiv_of_gt hgt hb
        simp only [if_pos hgt]
        rw [ih (accumulated + bound) (i + 1) (by omega)]
        have harg : size - (accumulated + bound) = size - accumulated - bound := by omega
        rw [harg, hcd]
        by_cases hdr : (g.is_distributed && g.is_root_device) = true
        · by_cases hw : g.worker_id = 0
          · simp only [hdr, hw, if_true]
            rw [List.range_succ_eq_map, List.map_cons, List.map_map,
              List.singleton_append]
            congr 1
            · simp [Nat.min_eq_left (Nat.le_of_lt hgt)]
            · apply List.map_congr_left
              intro j _
              simp only [Function.comp, Nat.succ_eq_add_one, Nat.add_mul, Nat.one_mul,
                PushCall.mk.injEq]
              refine ⟨?_, ?_, ?_⟩
              · rw [show i + (j + 1) = i + 1 + j from by omega]
              · congr 1
                omega
              · trivial
          · simp [hdr, hw]
        · simp [hdr]
      · have hd : 0 < size - accumulated := by omega
        have hcd : cdiv (size - accumulated) bound = 1 := cdiv_of_pos_le hd (by omega)
        simp only [if_neg hgt]
        rw [ih (accumulated + (size - accumulated)) (i + 1) (by omega)]
        have harg : size - (accumulated + (size - accumulated)) = 0 := by omega
        rw [harg, cdiv_zero_left, hcd]
        by_cases hdr : (g.is_distributed && g.is_root_device) = true
        · by_cases hw : g.worker_id = 0
          · simp only [hdr, hw, if_true]
            rw [show List.range 1 = [0] from rfl]
            simp [Nat.min_eq_right (by omega : size - accumulated ≤ bound)]
          · simp [hdr, hw]
        · simp [hdr]
    · have h0 : size - accumulated = 0 := by omega
      simp [initLoop, hlt, h0, cdiv_zero_left]

/-- `InitTensor` from `operations.cc`: the two key-count `BPS_CHECK`s (the
C++ writes `(unsigned int) (size+bound-1)/bound`, truncating the sum to 32
bits before the division, hence the `% 2 ^ 32`), buffer acquisition, the
push/barrier loop, the two final accounting checks, and setting
`initialized`.  Note that the function never reads `context.initialized`. -/
def InitTensor (g : Globals) (context : BPSContext) (_name : String)
    (dtype : Int) (cpubuff : Option Nat) :
    Except BpsError (BPSContext × InitEffects) :=
  let key_list := context.key_list
  let size := context.buff_len
  let bound := g.partition_bound
  if key_list.length = 0 then
    Except.error (BpsError.invariantViolation "key_list is empty")
  else if key_list.length ≠ ((size + bound - 1) % 2 ^ 32) / bound then
    Except.error (BpsError.invariantViolation "key_list size does not match round-up")
  else
    let ctx1 :=
      match cpubuff with
      | some b => { context with cpubuff := some b, reuse_buff := true }
      | none =>
        if g.is_cross_pcie_switch then
          let bufs := openPcieSharedMemory (key_list.getD 0 0) size
          { context with pcie_cpubuff := bufs, cpubuff := bufs.getLast?, reuse_buff := false }
        else
          { context with
            cpubuff := some (openSharedMemory (key_list.getD 0 0) size),
            reuse_buff := false }
    let r := initLoop g dtype key_list size bound size 0 0
    if r.2.2.1 ≠ size then
      Except.error (BpsError.invariantViolation "accumulated size mismatch")
    else if r.2.2.2 ≠ key_list.length then
      Except.error (BpsError.invariantViolation "loop count does not match key_list size")
    else
      Except.ok ({ ctx1 with initialized := true }, { pushes := r.1, barriers := r.2.1 })

/-- A successful `InitTensor` leaves `key_list` and `buff_len` untouched and
sets `initialized`. -/
theorem initTensor_ok_preserves (g : Globals) (context : BPSContext)
    (name : String) (dtype : Int) (cpubuff : Option Nat)
    (ctx' : BPSContext) (eff : InitEffects)
    (h : InitTensor g context name dtype cpubuff = Except.ok (ctx', eff)) :
    ctx'.key_list = context.key_list ∧ ctx'.buff_len = context.buff_len ∧
      ctx'.initialized = true := by
  cases cpubuff with
  | some b =>
    unfold InitTensor at h
    dsimp only [] at h
    split_ifs at h
    all_goals try exact Except.noConfusion h
    simp only [Except.ok.injEq, Prod.mk.injEq] at h
    obtain ⟨hctx, -⟩ := h
    subst hctx
    exact ⟨rfl, rfl, rfl⟩
  | none =>
    unfold InitTensor at h
    dsimp only [] at h
    split_ifs at h
    all_goals try exact Except.noConfusion h
    all_goals
      simp only [Except.ok.injEq, Prod.mk.injEq] at h
    all_goals
      obtain ⟨hctx, -⟩ := h
    all_goals
      subst hctx
    all_goals
      exact ⟨rfl, rfl, rfl⟩

/-- The external effects of `InitTensor` depend only on the role snapshot,
the dtype, the key list and the byte length, not on the rest of the
context. -/
theorem initTensor_effects_congr (g : Globals) (name : String) (dtype : Int)
    (cpubuff : Option Nat) (c1 c2 : BPSContext)
    (hk : c1.key_list = c2.key_list) (hbl : c1.buff_len = c2.buff_len) :
    (InitTensor g c1 name dtype cpubuff).map (fun r => r.2) =
      (InitTensor g c2 name dtype cpubuff).map (fun r => r.2) := by
  unfold InitTensor
  simp only [hk, hbl]
  split_ifs <;> rfl

/-- **C8.** `InitTensor` asserts `|key_list| > 0` and
`|key_list| = ⌈buff_len / partition_bound⌉`; then, when the node is
distributed and the root device, it iterates the partitions in order and,
exactly when the worker ID is 0, issues one blocking push per partition
(keyed `key_list[i]`, sized like the partition, with the default push-pull
command for the dtype), entering the worker-group barrier once per partition
regardless of worker ID; finally `initialized` is set.  (`h32` keeps the
C++ 32-bit cast in the key-count assert the identity.) -/
theorem initTensor_pushes_and_barriers (g : Globals) (context : BPSContext)
    (name : String) (dtype : Int) (cpubuff : Option Nat)
    (ctx' : BPSContext) (eff : InitEffects)
    (hb : 0 < g.partition_bound)
    (h32 : context.buff_len + g.partition_bound - 1 < 2 ^ 32)
    (h : InitTensor g context name dtype cpubuff = Except.ok (ctx', eff)) :
    0 < context.key_list.length ∧
    context.key_list.length = cdiv context.buff_len g.partition_bound ∧
    ctx'.initialized = true ∧
    (g.is_distributed = true → g.is_root_device = true →
      eff.barriers = context.key_list.length ∧
      eff.pushes = (if g.worker_id = 0 then
        (List.range context.key_list.length).map (fun j =>
          { key := context.key_list.getD j 0
            len := min g.partition_bound (context.buff_len - j * g.partition_bound)
            cmd := GetCommandType RequestType.kDefaultPushPull dtype })
        else [])) := by
  have hpres := initTensor_ok_preserves g context name dtype cpubuff ctx' eff h
  have hmod : (context.buff_len + g.partition_bound - 1) % 2 ^ 32 =
      context.buff_len + g.partition_bound - 1 := Nat.mod_eq_of_lt h32
  have hfuel : context.buff_len - 0 ≤ context.buff_len * g.partition_bound := by
    simpa using size_le_size_mul hb
  have hacc0 := initLoop_acc g dtype context.key_list context.buff_len g.partition_bound hb
    context.buff_len 0 0 hfuel (Nat.zero_le _)
  have hi0 := initLoop_i g dtype context.key_list context.buff_len g.partition_bound hb
    context.buff_len 0 0 hfuel
  have hbar0 := initLoop_barriers g dtype context.key_list context.buff_len g.partition_bound hb
    context.buff_len 0 0 hfuel
  have hpush0 := initLoop_pushes g dtype context.key_list context.buff_len g.partition_bound hb
    context.buff_len 0 0 hfuel
  unfold InitTensor at h
  dsimp only [] at h
  by_cases h1 : context.key_list.length = 0
  · rw [if_pos h1] at h
    exact Except.noConfusion h
  rw [if_neg h1] at h
  by_cases h2 : context.key_list.length =
      (context.buff_len + g.partition_bound - 1) % 2 ^ 32 / g.partition_bound
  · have hcdiv : context.key_list.length = cdiv context.buff_len g.partition_bound := by
      have h2c := h2
      rw [hmod] at h2c
      rw [cdiv]
      exact h2c
    rw [if_neg (show ¬ (context.key_list.length ≠ _) from fun hh => hh h2)] at h
    rw [if_neg (show ¬ _ ≠ _ from fun hh => hh hacc0)] at h
    have hi1 : (initLoop g dtype context.key_list context.buff_len g.partition_bound
        context.buff_len 0 0).2.2.2 = context.key_list.length := by
      rw [hi0]
      simpa using hcdiv.symm
    rw [if_neg (show ¬ _ ≠ _ from fun hh => hh hi1)] at h
    simp only [Except.ok.injEq, Prod.mk.injEq] at h
    obtain ⟨-, heff⟩ := h
    subst heff
    refine ⟨by omega, hcdiv, hpres.2.2, ?_⟩
    intro hd hr
    have hdr : (g.is_distributed && g.is_root_device) = true := by rw [hd, hr]; rfl
    constructor
    · show (initLoop g dtype context.key_list context.buff_len g.partition_bound
        context.buff_len 0 0).2.1 = context.key_list.length
      rw [hbar0, hcdiv]
      simp [hdr]
    · show (initLoop g dtype context.key_list context.buff_len g.partition_bound
        context.buff_len 0 0).1 = _
      rw [hpush0]
      simp only [hdr, if_true, Nat.sub_zero, Nat.zero_add]
      rw [← hcdiv]
  · rw [if_pos h2] at h
    exact Except.noConfusion h

/-- A role snapshot of a distributed root device whose worker ID is 0. -/
def g4 : Globals :=
  { is_distributed := true
    is_root_device := true
    is_cross_pcie_switch := false
    nccl_is_signal_root := true
    partition_bound := 4
    worker_id := 0 }

/-- A registration record before init: three keys for nine bytes. -/
def ctx4 : BPSContext :=
  { key_list := [10, 11, 12]
    buff_len := 9
    cpubuff := none
    pcie_cpubuff := []
    reuse_buff := false
    initialized := false }

/-- The same record after a successful init. -/
def ctx4b : BPSContext :=
  { key_list := [10, 11, 12]
    buff_len := 9
    cpubuff := some 10
    pcie_cpubuff := []
    reuse_buff := false
    initialized := true }

/-- The three worker-0 pushes seeding the nine bytes in partitions 4, 4, 1. -/
def threePushes : List PushCall :=
  [ { key := 10, len := 4, cmd := GetCommandType RequestType.kDefaultPushPull 5 },
    { key := 11, len := 4, cmd := GetCommandType RequestType.kDefaultPushPull 5 },
    { key := 12, len := 1, cmd := GetCommandType RequestType.kDefaultPushPull 5 } ]

/-- Witness for C8: `buff_len = 9`, `partition_bound = 4` gives three
partitions, three worker-0 pushes and three barriers. -/
theorem initTensor_pushes_and_barriers_witness :
    (0 < g4.partition_bound ∧
     ctx4.buff_len + g4.partition_bound - 1 < 2 ^ 32 ∧
     InitTensor g4 ctx4 "t" 5 none =
       Except.ok (ctx4b, { pushes := threePushes, barriers := 3 })) ∧
    (0 < ctx4.key_list.length ∧
     ctx4.key_list.length = cdiv ctx4.buff_len g4.partition_bound ∧
     ctx4b.initialized = true ∧
     (g4.is_distributed = true → g4.is_root_device = true →
       (InitEffects.mk threePushes 3).barriers = ctx4.key_list.length ∧
       (InitEffects.mk threePushes 3).pushes = (if g4.worker_id = 0 then
         (List.range ctx4.key_list.length).map (fun j =>
           { key := ctx4.key_list.getD j 0
             len := min g4.partition_bound (ctx4.buff_len - j * g4.partition_bound)
             cmd := GetCommandType RequestType.kDefaultPushPull 5 })
         else []))) :=
  ⟨⟨by decide, by decide, by rfl⟩,
   initTensor_pushes_and_barriers g4 ctx4 "t" 5 none ctx4b
     { pushes := threePushes, barriers := 3 } (by decide) (by decide) (by rfl)⟩

/-- **C4 (counterexample).** `ctx4b` is the context produced by a completed
`InitTensor` (so `initialized = true`), yet a second `InitTensor` call on it
is not a no-op: it issues the same three pushes to the parameter server
again, re-seeding the initial values. -/
theorem initTensor_not_idempotent_counterexample :
    InitTensor g4 ctx4 "t" 5 none =
      Except.ok (ctx4b, { pushes := threePushes, barriers := 3 }) ∧
    ctx4b.initialized = true ∧
    InitTensor g4 ctx4b "t" 5 none =
      Except.ok (ctx4b, { pushes := threePushes, barriers := 3 }) ∧
    threePushes ≠ [] :=
  ⟨by rfl, rfl, by rfl, by decide⟩

/-- **C4 (amended).** `InitTensor` never reads `initialized`: a second call
on the context produced by a successful init returns exactly the same
external effects — in particular it re-issues the worker-0 pushes, re-seeding
the parameter server, rather than being a no-op — and again yields an
initialized context. -/
theorem initTensor_second_call_repeats_effects (g : Globals) (context : BPSContext)
    (name : String) (dtype : Int) (cpubuff : Option Nat)
    (ctx' : BPSContext) (eff : InitEffects)
    (h : InitTensor g context name dtype cpubuff = Except.ok (ctx', eff)) :
    ctx'.initialized = true ∧
    (InitTensor g ctx' name dtype cpubuff).map (fun r => r.2) = Except.ok eff := by
  obtain ⟨hk, hbl, hinit⟩ := initTensor_ok_preserves g context name dtype cpubuff ctx' eff h
  refine ⟨hinit, ?_⟩
  rw [initTensor_effects_congr g name dtype cpubuff ctx' context hk hbl, h]
  rfl

/-- Witness for the amended C4 at the concrete first init of `ctx4`. -/
theorem initTensor_second_call_repeats_effects_witness :
    InitTensor g4 ctx4 "t" 5 none =
      Except.ok (ctx4b, { pushes := threePushes, barriers := 3 }) ∧
    (ctx4b.initialized = true ∧
     (InitTensor g4 ctx4b "t" 5 none).map (fun r => r.2) =
       Except.ok { pushes := threePushes, barriers := 3 }) :=
  ⟨by rfl,
   initTensor_second_call_repeats_effects g4 ctx4 "t" 5 none ctx4b
     { pushes := threePushes, barriers := 3 } (by rfl)⟩
